import Mathlib

/-!
Verification of the budget-app ledger (`budget.py`): the `Category` data
model with deposit/withdraw/transfer, the statement rendering, and the
`create_spend_chart` bar-chart renderer.

Monetary amounts are embedded as `ℚ`, the exact-arithmetic reading of the
spec's "signed decimal"; Python strings become Lean `String`s.  Fallible
code (the unguarded division in the chart renderer) returns `Option`.
-/

/-- One ledger entry: `{"amount": ..., "description": ...}`. -/
structure LedgerElement where
  amount : ℚ
  description : String
deriving DecidableEq

/-- A budget category: a name and an append-only ledger. -/
structure Category where
  name : String
  ledger : List LedgerElement
deriving DecidableEq

/-- `Category.get_balance`: `balance = 0.0; for element in ledger: balance += amount`. -/
def Category.get_balance (c : Category) : ℚ :=
  c.ledger.foldl (fun balance element => balance + element.amount) 0

/-- `Category.check_funds`: `return self.get_balance() >= amount`. -/
def Category.check_funds (c : Category) (amount : ℚ) : Bool :=
  c.get_balance ≥ amount

/-- `Category.deposit`: unconditionally append `{"amount": amount, "description": description}`. -/
def Category.deposit (c : Category) (amount : ℚ) (description : String := "") : Category :=
  { c with ledger := c.ledger ++ [{ amount := amount, description := description }] }

/-- `Category.withdraw`: on `check_funds(amount)` append `{"amount": amount * -1.0, ...}`
and return `True`, else return `False` and leave the ledger alone.  The returned pair is
(return value, category state after the call). -/
def Category.withdraw (c : Category) (amount : ℚ) (description : String := "") :
    Bool × Category :=
  if c.check_funds amount then
    (true, { c with ledger := c.ledger ++ [{ amount := amount * (-1), description := description }] })
  else
    (false, c)

/-- `Category.transfer`: on `check_funds(amount)` withdraw from `self` and deposit into
`destination`, returning `True`; else `False`.  The result is
(return value, source state after, destination state after). -/
def Category.transfer (src : Category) (amount : ℚ) (destination : Category) :
    Bool × Category × Category :=
  if src.check_funds amount then
    let w := src.withdraw amount ("Transfer to " ++ destination.name)
    let d := destination.deposit amount ("Transfer from " ++ src.name)
    (true, w.2, d)
  else
    (false, src, destination)

/-- Python's `s.rjust(width, fill)`: pad on the left up to `width`, never truncate. -/
def pyRjust (s : String) (width : Nat) (fill : Char) : String :=
  String.mk (List.replicate (width - s.length) fill) ++ s

/-- Python's `s.center(width, fill)` (CPython puts the extra fill character on the
right when `width` is even, the case used here). -/
def pyCenter (s : String) (width : Nat) (fill : Char) : String :=
  let marg := width - s.length
  let left := marg / 2 + (marg &&& width &&& 1)
  String.mk (List.replicate left fill) ++ s ++ String.mk (List.replicate (marg - left) fill)

/-- Round to the nearest integer, ties to even: the rounding Python's fixed-point
formatting applies to an exactly representable value. -/
def roundHalfEven (q : ℚ) : Int :=
  if q - ⌊q⌋ > 1 / 2 then ⌊q⌋ + 1
  else if q - ⌊q⌋ < 1 / 2 then ⌊q⌋
  else if ⌊q⌋ % 2 = 0 then ⌊q⌋ else ⌊q⌋ + 1

/-- The source's `f"{x:0.2f}"` on the exact value `q`: optional sign, integer part,
`"."`, and exactly two decimal digits. -/
def fmt2 (q : ℚ) : String :=
  let n : Nat := (roundHalfEven (|q| * 100)).toNat
  (if q < 0 then "-" else "") ++ toString (n / 100) ++ "." ++
    String.singleton (Char.ofNat (48 + n / 10 % 10)) ++ String.singleton (Char.ofNat (48 + n % 10))

/-- `Category.__str__`: title line, one line per entry, `"Total: ..."` last.
`element.description[:23]` is `String.take 23`; the gap is `"".rjust(30 - ... - ...)`,
where both Python's `rjust` and Lean's `Nat` subtraction clamp a negative width to 0. -/
def Category.toStatement (c : Category) : String :=
  let title := pyCenter c.name 30 '*' ++ "\n"
  let body := c.ledger.foldl
    (fun result element =>
      result ++
        (element.description.take 23 ++
          pyRjust "" (30 - (fmt2 element.amount).length - (element.description.take 23).length) ' ' ++
          fmt2 element.amount ++ "\n"))
    title
  body ++ ("Total: " ++ fmt2 c.get_balance)

/-- The chart's per-category withdrawal total: sum of `amount * -1.0` over the
strictly negative entries. -/
def withdrawSum (c : Category) : ℚ :=
  c.ledger.foldl (fun s element => if element.amount < 0 then s + element.amount * (-1) else s) 0

/-- `overall_withdraw`: the loop summing every category's withdrawal total. -/
def overall_withdraw (cs : List Category) : ℚ :=
  (cs.map fun c => (c.name, withdrawSum c)).foldl (fun s w => s + w.2) 0

/-- The source's percentage expression
`math.floor(100.0 / overall_withdraw * withdraw_amount / 10.0) * 10`. -/
def percent (overall amount : ℚ) : Int :=
  ⌊(100 : ℚ) / overall * amount / 10⌋ * 10

/-- The percentage computation as run: the division has no guard, so a zero
`overall_withdraw` is a failure (`ZeroDivisionError`), modelled as `none`. -/
def percentOf (overall amount : ℚ) : Option Int :=
  if overall = 0 then none else some (percent overall amount)

/-- The `x_axis` loop: one `(name, percent)` per category, aborting on the first
failed division. -/
def percentAxis (overall : ℚ) : List (String × ℚ) → Option (List (String × Int))
  | [] => some []
  | w :: rest =>
    match percentOf overall w.2, percentAxis overall rest with
    | some p, some xs => some ((w.1, p) :: xs)
    | _, _ => none

/-- The y-axis labels `["100", "90", ..., "0"]`, kept as the integers they denote
(the source renders them with `str` and compares with `int`). -/
def yAxisLabels : List Int := [100, 90, 80, 70, 60, 50, 40, 30, 20, 10, 0]

/-- One cell of a rotated name row: `" " + name[i] + " "`, or three spaces once the
name is exhausted (the source's `except IndexError` branch). -/
def labelCell (x : String × Int) (i : Nat) : String :=
  if i < x.1.length then " " ++ String.singleton (x.1.toList.getD i ' ') ++ " " else "   "

/-- One rotated name row: `line = "    "` then one cell per category. -/
def labelRow (xs : List (String × Int)) (i : Nat) : String :=
  xs.foldl (fun line x => line ++ labelCell x i) "    "

/-- The source's `while i < max_name_length` loop (`i = 0, 1, ...`): append each name
row plus a trailing space, with a newline between rows but not after the last. -/
def nameRowsLoop (xs : List (String × Int)) (maxLen : Nat) (acc : String) : String :=
  (List.range maxLen).foldl
    (fun result i => result ++ labelRow xs i ++ " " ++ (if i < maxLen - 1 then "\n" else ""))
    acc

/-- `create_spend_chart`: withdrawal sums, overall total, percentages (failing on a
zero total with categories present), then the header, the 11 bar rows, the dash
separator and the rotated name rows.  The console `print` is I/O outside the pure
contract and is not modelled. -/
def create_spend_chart (categories : List Category) : Option String :=
  let withdraws : List (String × ℚ) := categories.map fun c => (c.name, withdrawSum c)
  let overall : ℚ := withdraws.foldl (fun s w => s + w.2) 0
  match percentAxis overall withdraws with
  | none => none
  | some xAxis =>
    let maxNameLength : Nat := withdraws.foldl (fun m w => max m w.1.length) 0
    let result : String := yAxisLabels.foldl
      (fun r y =>
        r ++ pyRjust (toString y ++ "|") 4 ' ' ++
          xAxis.foldl (fun rr x => rr ++ if x.2 ≥ y then " o " else "   ") "" ++ " \n")
      ("Percentage spent by category" ++ "\n")
    let result := result ++ "    " ++ pyRjust "" (xAxis.length * 3) '-' ++ "-\n"
    some (nameRowsLoop xAxis maxNameLength result)

/-- Concrete state for the round-trip counterexample: balance `-1`, reachable by
`deposit(-1)` (the source accepts negative deposits). -/
def cexCat : Category := { name := "Food", ledger := [{ amount := -1, description := "" }] }

/-- Concrete category with withdrawal sum 20 for the chart-percentage witness. -/
def demoFood : Category :=
  { name := "Food",
    ledger := [{ amount := 900, description := "initial" }, { amount := -20, description := "a" }] }

/-- Concrete two-category input for the chart-percentage witness. -/
def demoCats : List Category :=
  [demoFood, { name := "Auto", ledger := [{ amount := -60, description := "b" }] }]

/-- Concrete one-category input for the chart-layout witness. -/
def demoCatA : Category := { name := "A", ledger := [{ amount := -10, description := "w" }] }

/-- A fresh category with an empty ledger. -/
def emptyFood : Category := { name := "Food", ledger := [] }

/-- Accumulator form of `get_balance`'s loop. -/
theorem foldl_add_amount (l : List LedgerElement) (a : ℚ) :
    l.foldl (fun balance element => balance + element.amount) a
      = a + (l.map LedgerElement.amount).sum := by
  induction l generalizing a with
  | nil => simp
  | cons e t ih => simp [List.foldl_cons, ih, add_assoc]

/-- The balance of a ledger extended on the right. -/
theorem get_balance_append (c : Category) (e : LedgerElement) :
    (Category.mk c.name (c.ledger ++ [e])).get_balance = c.get_balance + e.amount := by
  simp [Category.get_balance, foldl_add_amount]

/-- C1: `get_balance()` always returns exactly the sum of the `amount` fields of the
entries currently in the ledger (`0` for an empty ledger).  The statement is universal
over every category state, hence holds at every point of any operation sequence; in the
embedding `get_balance` is a pure function of the state, so it mutates nothing. -/
theorem get_balance_eq_sum (c : Category) :
    c.get_balance = (c.ledger.map LedgerElement.amount).sum := by
  simpa using foldl_add_amount c.ledger 0

/-- C2: `withdraw(amount, description)` succeeds, appending exactly the single entry
`{-amount, description}`, if and only if the balance at the moment of the check is at
least `amount`; otherwise it returns `False` and leaves the category unchanged. -/
theorem withdraw_spec (c : Category) (amount : ℚ) (description : String) :
    ((c.withdraw amount description).1 = true ↔ amount ≤ c.get_balance) ∧
    (amount ≤ c.get_balance →
      c.withdraw amount description =
        (true, { c with
          ledger := c.ledger ++ [{ amount := -amount, description := description }] })) ∧
    (c.get_balance < amount → c.withdraw amount description = (false, c)) := by
  refine ⟨?_, ?_, ?_⟩
  · unfold Category.withdraw Category.check_funds
    by_cases h : amount ≤ c.get_balance <;> simp [h, ge_iff_le]
  · intro h
    simp [Category.withdraw, Category.check_funds, ge_iff_le, h, mul_neg_one]
  · intro h
    simp [Category.withdraw, Category.check_funds, ge_iff_le, not_le.mpr h]

/-- C3: with sufficient funds, `transfer` returns `True`, appends the
`"Transfer to ..."` debit to the source and the `"Transfer from ..."` credit to the
destination, moving exactly `amount` between the two balances; with insufficient funds
it returns `False` and mutates neither category. -/
theorem transfer_spec (src : Category) (amount : ℚ) (dst : Category) :
    (amount ≤ src.get_balance →
      src.transfer amount dst =
        (true,
          { src with ledger := src.ledger ++
              [{ amount := -amount, description := "Transfer to " ++ dst.name }] },
          { dst with ledger := dst.ledger ++
              [{ amount := amount, description := "Transfer from " ++ src.name }] }) ∧
      (src.transfer amount dst).2.1.get_balance = src.get_balance - amount ∧
      (src.transfer amount dst).2.2.get_balance = dst.get_balance + amount) ∧
    (src.get_balance < amount → src.transfer amount dst = (false, src, dst)) := by
  constructor
  · intro h
    have htr : src.transfer amount dst =
        (true,
          { src with ledger := src.ledger ++
              [{ amount := -amount, description := "Transfer to " ++ dst.name }] },
          { dst with ledger := dst.ledger ++
              [{ amount := amount, description := "Transfer from " ++ src.name }] }) := by
      simp [Category.transfer, Category.withdraw, Category.deposit, Category.check_funds,
        ge_iff_le, h, mul_neg_one]
    refine ⟨htr, ?_, ?_⟩ <;> rw [htr] <;>
      · simp [Category.get_balance, foldl_add_amount]
        try ring
  · intro h
    simp [Category.transfer, Category.check_funds, ge_iff_le, not_le.mpr h]

/-- C4: a withdrawal entry, and the debit entry of an outgoing transfer, is appended
only when the balance at the instant of the funds check is at least the requested
amount; consequently the balance immediately after a successful `withdraw`, and the
source balance immediately after a successful `transfer`, is non-negative. -/
theorem withdraw_transfer_nonneg (c src dst : Category) (amount : ℚ) (description : String) :
    ((c.withdraw amount description).1 = true →
      amount ≤ c.get_balance ∧ 0 ≤ (c.withdraw amount description).2.get_balance) ∧
    ((src.transfer amount dst).1 = true →
      amount ≤ src.get_balance ∧ 0 ≤ (src.transfer amount dst).2.1.get_balance) := by
  constructor
  · intro h
    have hc : amount ≤ c.get_balance := by
      by_contra hn
      simp [Category.withdraw, Category.check_funds, ge_iff_le, hn] at h
    refine ⟨hc, ?_⟩
    have hc' := hc
    rw [get_balance_eq_sum c] at hc'
    simp [Category.withdraw, Category.check_funds, ge_iff_le, hc, hc',
      Category.get_balance, foldl_add_amount]
  · intro h
    have hc : amount ≤ src.get_balance := by
      by_contra hn
      simp [Category.transfer, Category.check_funds, ge_iff_le, hn] at h
    refine ⟨hc, ?_⟩
    have hc' := hc
    rw [get_balance_eq_sum src] at hc'
    simp [Category.transfer, Category.withdraw, Category.check_funds, ge_iff_le, hc, hc',
      Category.get_balance, foldl_add_amount]

/-- C5 fails as stated: on a category whose balance is already negative (reachable,
since `deposit` accepts negative amounts), `deposit(5)` then `withdraw(5)` does not
restore the balance — the withdrawal's funds check fails, so the balance stays at the
deposited value `4` instead of returning to `-1`. -/
theorem roundtrip_cex :
    ((cexCat.deposit 5 "").withdraw 5 "").2.get_balance ≠ cexCat.get_balance := by
  norm_num [cexCat, Category.deposit, Category.withdraw, Category.check_funds,
    Category.get_balance]

/-- C5 amended: on every category whose current balance is non-negative, depositing `X`
and then withdrawing `X` returns `get_balance()` exactly to its prior value, for any
amount `X` and any descriptions. -/
theorem deposit_withdraw_roundtrip (c : Category) (X : ℚ) (d₁ d₂ : String)
    (h : 0 ≤ c.get_balance) :
    ((c.deposit X d₁).withdraw X d₂).2.get_balance = c.get_balance := by
  have hb : (c.deposit X d₁).get_balance = c.get_balance + X := by
    simp [Category.deposit, Category.get_balance, foldl_add_amount]
  have hc : X ≤ (c.deposit X d₁).get_balance := by rw [hb]; linarith
  simp only [Category.withdraw, Category.check_funds, ge_iff_le, decide_eq_true_eq, if_pos hc]
  simp [Category.deposit, Category.get_balance, foldl_add_amount]

/-- C5 amended, witnessed on a fresh category: deposit 5 then withdraw 5 leaves the
balance at its prior value 0. -/
theorem deposit_withdraw_roundtrip_witness :
    (0:ℚ) ≤ emptyFood.get_balance ∧
      ((emptyFood.deposit 5 "a").withdraw 5 "b").2.get_balance = emptyFood.get_balance :=
  ⟨by simp [emptyFood, Category.get_balance],
   deposit_withdraw_roundtrip emptyFood 5 "a" "b" (by simp [emptyFood, Category.get_balance])⟩

/-- Accumulator form of the withdrawal-sum loop. -/
theorem foldl_withdraw_sum (l : List LedgerElement) (a : ℚ) :
    l.foldl (fun s element => if element.amount < 0 then s + element.amount * (-1) else s) a
      = a + ((l.filter fun e => e.amount < 0).map fun e => -e.amount).sum := by
  induction l generalizing a with
  | nil => simp
  | cons e t ih =>
    rw [List.foldl_cons]
    by_cases he : e.amount < 0
    · rw [if_pos he, ih]
      simp [List.filter_cons, he]
      ring
    · rw [if_neg he, ih]
      simp [List.filter_cons, he]

/-- `withdrawSum` is the sum of the absolute values of the negative entries. -/
theorem withdrawSum_eq_sum (c : Category) :
    withdrawSum c = ((c.ledger.filter fun e => e.amount < 0).map fun e => -e.amount).sum := by
  simpa [withdrawSum] using foldl_withdraw_sum c.ledger 0

/-- Withdrawal sums are non-negative. -/
theorem withdrawSum_nonneg (c : Category) : 0 ≤ withdrawSum c := by
  rw [withdrawSum_eq_sum]
  apply List.sum_nonneg
  intro x hx
  obtain ⟨e, he, rfl⟩ := List.mem_map.mp hx
  have : e.amount < 0 := by simpa using (List.mem_filter.mp he).2
  linarith

/-- Accumulator form of the `overall_withdraw` loop. -/
theorem foldl_overall (l : List Category) (a : ℚ) :
    (l.map fun c => (c.name, withdrawSum c)).foldl (fun s w => s + w.2) a
      = a + (l.map withdrawSum).sum := by
  induction l generalizing a with
  | nil => simp
  | cons c t ih => simp [List.foldl_cons, ih, add_assoc]

/-- `overall_withdraw` as a plain sum. -/
theorem overall_withdraw_eq_sum (cs : List Category) :
    overall_withdraw cs = (cs.map withdrawSum).sum := by
  simpa [overall_withdraw] using foldl_overall cs 0

/-- Each category's withdrawal sum is at most the overall total. -/
theorem withdrawSum_le_overall (cs : List Category) (c : Category) (hc : c ∈ cs) :
    withdrawSum c ≤ overall_withdraw cs := by
  rw [overall_withdraw_eq_sum]
  exact List.single_le_sum (fun x hx => by
    obtain ⟨d, _, rfl⟩ := List.mem_map.mp hx
    exact withdrawSum_nonneg d) _ (List.mem_map_of_mem _ hc)

/-- C6: each category's `withdraw_sum` counts only the negative ledger entries, by
absolute value; the successful percentage equals the spec's
`floor(100 * withdraw_sum / overall_withdraw / 10) * 10`, lies in `[0, 100]`, and a
category with zero withdrawals gets percent `0`. -/
theorem chart_percent_spec (cs : List Category) (c : Category) (hc : c ∈ cs)
    (h : overall_withdraw cs ≠ 0) :
    withdrawSum c = ((c.ledger.filter fun e => e.amount < 0).map fun e => -e.amount).sum ∧
    percentOf (overall_withdraw cs) (withdrawSum c) =
      some (⌊100 * withdrawSum c / overall_withdraw cs / 10⌋ * 10) ∧
    0 ≤ percent (overall_withdraw cs) (withdrawSum c) ∧
    percent (overall_withdraw cs) (withdrawSum c) ≤ 100 ∧
    (withdrawSum c = 0 → percentOf (overall_withdraw cs) (withdrawSum c) = some 0) := by
  have hnn : 0 ≤ overall_withdraw cs := by
    rw [overall_withdraw_eq_sum]
    exact List.sum_nonneg fun x hx => by
      obtain ⟨d, _, rfl⟩ := List.mem_map.mp hx
      exact withdrawSum_nonneg d
  have ho : 0 < overall_withdraw cs := lt_of_le_of_ne hnn (Ne.symm h)
  have hw0 : 0 ≤ withdrawSum c := withdrawSum_nonneg c
  have hwle : withdrawSum c ≤ overall_withdraw cs := withdrawSum_le_overall cs c hc
  have harg : (100 : ℚ) / overall_withdraw cs * withdrawSum c / 10
      = 100 * withdrawSum c / overall_withdraw cs / 10 := by ring
  refine ⟨withdrawSum_eq_sum c, ?_, ?_, ?_, ?_⟩
  · simp [percentOf, h, percent, harg]
  · have h1 : (0 : ℚ) ≤ 100 / overall_withdraw cs * withdrawSum c / 10 :=
      div_nonneg (mul_nonneg (le_of_lt (div_pos (by norm_num) ho)) hw0) (by norm_num)
    exact mul_nonneg (Int.floor_nonneg.mpr h1) (by norm_num)
  · have hq : (100 : ℚ) / overall_withdraw cs * withdrawSum c / 10 ≤ 10 := by
      have h2 : withdrawSum c / overall_withdraw cs ≤ 1 := (div_le_one ho).mpr hwle
      calc (100 : ℚ) / overall_withdraw cs * withdrawSum c / 10
          = 10 * (withdrawSum c / overall_withdraw cs) := by ring
        _ ≤ 10 * 1 := by linarith
        _ = 10 := by norm_num
    have h3 : ⌊(100 : ℚ) / overall_withdraw cs * withdrawSum c / 10⌋ ≤ 10 := by
      calc ⌊(100 : ℚ) / overall_withdraw cs * withdrawSum c / 10⌋
          ≤ ⌊(10 : ℚ)⌋ := Int.floor_le_floor hq
        _ = 10 := by norm_num
    calc percent (overall_withdraw cs) (withdrawSum c)
        = ⌊(100 : ℚ) / overall_withdraw cs * withdrawSum c / 10⌋ * 10 := rfl
      _ ≤ 10 * 10 := by linarith
      _ = 100 := by norm_num
  · intro hz
    simp [percentOf, h, percent, hz]

/-- C6, witnessed on two categories with withdrawal sums 20 and 60 (overall 80): the
first category's percent is `floor(10 * 20 / 80) * 10 = 20`. -/
theorem chart_percent_spec_witness :
    withdrawSum demoFood =
        ((demoFood.ledger.filter fun e => e.amount < 0).map fun e => -e.amount).sum ∧
      percentOf (overall_withdraw demoCats) (withdrawSum demoFood) =
        some (⌊100 * withdrawSum demoFood / overall_withdraw demoCats / 10⌋ * 10) ∧
      0 ≤ percent (overall_withdraw demoCats) (withdrawSum demoFood) ∧
      percent (overall_withdraw demoCats) (withdrawSum demoFood) ≤ 100 ∧
      (withdrawSum demoFood = 0 →
        percentOf (overall_withdraw demoCats) (withdrawSum demoFood) = some 0) :=
  chart_percent_spec demoCats demoFood (by simp [demoCats])
    (by norm_num [overall_withdraw, withdrawSum, demoCats, demoFood])

/-- C7 fails as stated: on the empty category list `overall_withdraw` is zero, yet
`create_spend_chart` does not fail — the per-category percentage loop runs zero times,
so the division is never executed. -/
theorem zero_overall_cex : overall_withdraw [] = 0 ∧ create_spend_chart [] ≠ none := by
  constructor
  · rfl
  · decide

/-- C7 amended: whenever at least one category is passed and the overall withdrawal
total is zero, the percentage computation divides by zero and the function fails
instead of returning a chart. -/
theorem create_spend_chart_zero_overall (cs : List Category) (h1 : cs ≠ [])
    (h2 : overall_withdraw cs = 0) : create_spend_chart cs = none := by
  obtain ⟨c, rest, rfl⟩ := List.exists_cons_of_ne_nil h1
  simp only [create_spend_chart]
  rw [show (((c :: rest).map fun c => (c.name, withdrawSum c)).foldl
      (fun s w => s + w.2) 0) = overall_withdraw (c :: rest) from rfl, h2]
  simp [percentAxis, percentOf]

/-- C7 amended, witnessed: one category with no withdrawals makes the chart fail. -/
theorem create_spend_chart_zero_overall_witness : create_spend_chart [emptyFood] = none :=
  create_spend_chart_zero_overall [emptyFood] (by simp)
    (by norm_num [overall_withdraw, withdrawSum, emptyFood])

/-- C10: on the empty category list `create_spend_chart` returns normally — no division
happens — and the chart is the title, the eleven bare axis rows (label, `|`, one
trailing space), and the separator of four spaces and a single dash ending in a
newline, with no name rows after it. -/
theorem create_spend_chart_empty :
    create_spend_chart [] = some "Percentage spent by category\n100| \n 90| \n 80| \n 70| \n 60| \n 50| \n 40| \n 30| \n 20| \n 10| \n  0| \n    -\n" := by
  decide

/-- `String.join` distributes over cons. -/
theorem join_cons (s : String) (l : List String) :
    String.join (s :: l) = s ++ String.join l := by
  apply String.ext
  simp [String.data_join, String.data_append]

/-- A string-accumulating `foldl` is the initial string followed by the joined
per-element strings. -/
theorem foldl_append_eq_join {α : Type} (f : α → String) (l : List α) (init : String) :
    l.foldl (fun r a => r ++ f a) init = init ++ String.join (l.map f) := by
  induction l generalizing init with
  | nil => simp [String.join]
  | cons a t ih => simp [List.foldl_cons, ih, join_cons, String.append_assoc]

/-- The last character of a string ending in a pushed character. -/
theorem last_of_append_singleton (s : String) (ch : Char) :
    (s ++ String.singleton ch).data.getLast? = some ch := by
  simp [String.data_append, String.singleton]

/-- `fmt2` always ends in a decimal digit, never in a newline. -/
theorem fmt2_split (q : ℚ) :
    ∃ s ch, fmt2 q = s ++ String.singleton ch ∧ ch ≠ '\n' := by
  refine ⟨(if q < 0 then "-" else "") ++ toString ((roundHalfEven (|q| * 100)).toNat / 100) ++ "." ++
      String.singleton (Char.ofNat (48 + (roundHalfEven (|q| * 100)).toNat / 10 % 10)),
    Char.ofNat (48 + (roundHalfEven (|q| * 100)).toNat % 10), rfl, ?_⟩
  have hk : (roundHalfEven (|q| * 100)).toNat % 10 < 10 := Nat.mod_lt _ (by norm_num)
  generalize (roundHalfEven (|q| * 100)).toNat % 10 = k at hk
  interval_cases k <;> decide

/-- C8: the statement is the `*`-centred (width 30) title line, then one line per
ledger entry — the description truncated to 23 characters, `30 - len(amount) -
len(description)` spaces, the two-decimal amount — each such line spanning exactly 30
characters whenever that padding count is non-negative, then `"Total: "` and the
two-decimal balance with no trailing newline (the final character is a digit). -/
theorem statement_spec (c : Category) :
    c.toStatement =
      pyCenter c.name 30 '*' ++ "\n" ++
        String.join (c.ledger.map fun e =>
          e.description.take 23 ++
            pyRjust "" (30 - (fmt2 e.amount).length - (e.description.take 23).length) ' ' ++
            fmt2 e.amount ++ "\n") ++
        ("Total: " ++ fmt2 c.get_balance) ∧
    (∀ e ∈ c.ledger,
      (fmt2 e.amount).length + (e.description.take 23).length ≤ 30 →
      (e.description.take 23 ++
          pyRjust "" (30 - (fmt2 e.amount).length - (e.description.take 23).length) ' ' ++
          fmt2 e.amount).length = 30) ∧
    c.toStatement.data.getLast? ≠ some '\n' := by
  have heq : c.toStatement =
      pyCenter c.name 30 '*' ++ "\n" ++
        String.join (c.ledger.map fun e =>
          e.description.take 23 ++
            pyRjust "" (30 - (fmt2 e.amount).length - (e.description.take 23).length) ' ' ++
            fmt2 e.amount ++ "\n") ++
        ("Total: " ++ fmt2 c.get_balance) := by
    simp only [Category.toStatement]
    rw [foldl_append_eq_join (fun element : LedgerElement =>
      element.description.take 23 ++
        pyRjust "" (30 - (fmt2 element.amount).length - (element.description.take 23).length) ' ' ++
        fmt2 element.amount ++ "\n")]
  refine ⟨heq, ?_, ?_⟩
  · intro e _ hlen
    simp only [String.length_append, pyRjust, String.length_mk, List.length_replicate,
      String.length_empty]
    omega
  · obtain ⟨s, ch, hs, hch⟩ := fmt2_split c.get_balance
    rw [heq, hs]
    rw [show pyCenter c.name 30 '*' ++ "\n" ++
        String.join (c.ledger.map fun e =>
          e.description.take 23 ++
            pyRjust "" (30 - (fmt2 e.amount).length - (e.description.take 23).length) ' ' ++
            fmt2 e.amount ++ "\n") ++
        ("Total: " ++ (s ++ String.singleton ch)) =
      (pyCenter c.name 30 '*' ++ "\n" ++
        String.join (c.ledger.map fun e =>
          e.description.take 23 ++
            pyRjust "" (30 - (fmt2 e.amount).length - (e.description.take 23).length) ' ' ++
            fmt2 e.amount ++ "\n") ++
        ("Total: " ++ s)) ++ String.singleton ch from by simp [String.append_assoc]]
    rw [last_of_append_singleton]
    simp [hch]

/-- A successful `x_axis` pass is the per-category percentage map. -/
theorem percentAxis_eq (overall : ℚ) (ws : List (String × ℚ)) (xs : List (String × Int))
    (h : percentAxis overall ws = some xs) :
    xs = ws.map fun w => (w.1, percent overall w.2) := by
  induction ws generalizing xs with
  | nil =>
    simp [percentAxis] at h
    simp [h.symm]
  | cons w t ih =>
    simp only [percentAxis] at h
    cases hp : percentOf overall w.2 with
    | none => rw [hp] at h; simp at h
    | some p =>
      cases ht : percentAxis overall t with
      | none => rw [hp, ht] at h; simp at h
      | some ys =>
        rw [hp, ht] at h
        simp only [Option.some.injEq] at h
        subst h
        have hz : ¬ overall = 0 := by
          intro hz; rw [hz] at hp; simp [percentOf] at hp
        have hpp : p = percent overall w.2 := by
          simp [percentOf, hz] at hp; exact hp.symm
        simp [List.map_cons, ih ys ht, hpp]

/-- The separator `"    " + "-"*(3n) + "-\n"` is four spaces, `3n + 1` dashes and a
newline. -/
theorem dash_sep (n : Nat) :
    pyRjust "" (n * 3) '-' ++ "-\n" = String.mk (List.replicate (3 * n + 1) '-') ++ "\n" := by
  apply String.ext
  simp [pyRjust, String.data_append, Nat.mul_comm n 3, List.replicate_succ']

/-- The rotated-name loop is the accumulator followed by the joined name rows. -/
theorem nameRowsLoop_eq (xs : List (String × Int)) (maxLen : Nat) (acc : String) :
    nameRowsLoop xs maxLen acc =
      acc ++ String.join ((List.range maxLen).map fun i =>
        labelRow xs i ++ (" " ++ (if i < maxLen - 1 then "\n" else ""))) := by
  unfold nameRowsLoop
  rw [show (fun (result : String) (i : Nat) =>
      result ++ labelRow xs i ++ " " ++ (if i < maxLen - 1 then "\n" else "")) =
    fun result i => result ++ (labelRow xs i ++ (" " ++ (if i < maxLen - 1 then "\n" else ""))) from by
      funext r i; simp [String.append_assoc]]
  rw [foldl_append_eq_join]

/-- C9: every chart the renderer returns is the title line, then exactly the eleven
rows for labels 100 down to 0 — each the label-and-`|` right-justified to width 4, one
3-character cell per category in input order (`" o "` iff that category's percent is at
least the label, so a category at exactly the row's percentage is drawn), and a
trailing space before the newline — then the separator of 4 spaces and
`3 * categories + 1` dashes, then the rotated name rows. -/
theorem chart_layout_spec (cs : List Category) (s : String)
    (h : create_spend_chart cs = some s) :
    ∃ tail : String,
      s = "Percentage spent by category" ++ "\n" ++
        String.join ((([100, 90, 80, 70, 60, 50, 40, 30, 20, 10, 0] : List Int)).map fun y =>
          pyRjust (toString y ++ "|") 4 ' ' ++
            (String.join ((cs.map fun c =>
              (c.name, percent (overall_withdraw cs) (withdrawSum c))).map fun x =>
                if x.2 ≥ y then " o " else "   ") ++ " \n")) ++
        ("    " ++ (String.mk (List.replicate (3 * cs.length + 1) '-') ++ "\n") ++ tail) := by
  simp only [create_spend_chart] at h
  cases hA : percentAxis
      ((cs.map fun c => (c.name, withdrawSum c)).foldl (fun s w => s + w.2) 0)
      (cs.map fun c => (c.name, withdrawSum c)) with
  | none => rw [hA] at h; simp at h
  | some xs =>
    rw [hA] at h
    simp only [Option.some.injEq] at h
    subst h
    have hxs := percentAxis_eq _ _ _ hA
    rw [List.map_map] at hxs
    simp only [Function.comp_def] at hxs
    have hlen : xs.length = cs.length := by rw [hxs]; simp
    refine ⟨String.join ((List.range
        ((cs.map fun c => (c.name, withdrawSum c)).foldl (fun m w => max m w.1.length) 0)).map fun i =>
      labelRow xs i ++ (" " ++
        (if i < ((cs.map fun c => (c.name, withdrawSum c)).foldl (fun m w => max m w.1.length) 0) - 1
          then "\n" else ""))), ?_⟩
    rw [nameRowsLoop_eq]
    have hinner : ∀ y : Int,
        xs.foldl (fun rr x => rr ++ if x.2 ≥ y then " o " else "   ") ""
          = String.join (xs.map fun x => if x.2 ≥ y then " o " else "   ") := by
      intro y
      rw [foldl_append_eq_join]
      simp
    simp only [hinner]
    rw [show (fun (r : String) (y : Int) =>
        r ++ pyRjust (toString y ++ "|") 4 ' ' ++
          String.join (xs.map fun x => if x.2 ≥ y then " o " else "   ") ++ " \n") =
      fun r y => r ++ (pyRjust (toString y ++ "|") 4 ' ' ++
        (String.join (xs.map fun x => if x.2 ≥ y then " o " else "   ") ++ " \n")) from by
        funext r y; simp [String.append_assoc]]
    rw [foldl_append_eq_join]
    rw [show ((cs.map fun c => (c.name, withdrawSum c)).foldl (fun s w => s + w.2) 0)
      = overall_withdraw cs from rfl] at hxs
    rw [← hxs, hlen]
    rw [← dash_sep cs.length]
    simp only [yAxisLabels]
    simp [String.append_assoc]

/-- C9, witnessed on one category holding one withdrawal (percent 100): the rendered
chart decomposes into the documented rows and separator. -/
theorem chart_layout_spec_witness :
    ∃ tail : String,
      ("Percentage spent by category\n100| o  \n 90| o  \n 80| o  \n 70| o  \n 60| o  \n 50| o  \n 40| o  \n 30| o  \n 20| o  \n 10| o  \n  0| o  \n    ----\n     A  " : String) =
        "Percentage spent by category" ++ "\n" ++
        String.join ((([100, 90, 80, 70, 60, 50, 40, 30, 20, 10, 0] : List Int)).map fun y =>
          pyRjust (toString y ++ "|") 4 ' ' ++
            (String.join (([demoCatA].map fun c =>
              (c.name, percent (overall_withdraw [demoCatA]) (withdrawSum c))).map fun x =>
                if x.2 ≥ y then " o " else "   ") ++ " \n")) ++
        ("    " ++ (String.mk (List.replicate (3 * [demoCatA].length + 1) '-') ++ "\n") ++ tail) :=
  chart_layout_spec [demoCatA]
    "Percentage spent by category\n100| o  \n 90| o  \n 80| o  \n 70| o  \n 60| o  \n 50| o  \n 40| o  \n 30| o  \n 20| o  \n 10| o  \n  0| o  \n    ----\n     A  "
    (by
      have hw : withdrawSum { name := "A", ledger := [{ amount := -10, description := "w" }] } = 10 := by
        norm_num [withdrawSum]
      have hp : percent 10 10 = 100 := by norm_num [percent]
      simp only [create_spend_chart, demoCatA, List.map_cons, List.map_nil, hw,
        List.foldl_cons, List.foldl_nil, zero_add, percentAxis, percentOf, hp,
        if_neg (show ¬ ((10:ℚ) = 0) by norm_num)]
      rfl)
